import Mathlib

/-!
Shallow embedding of the TDI Auto Trading dashboard client
(`src/web/static/js/main.js`).  Trading symbols are strings, JavaScript
numbers are modelled as rationals, absent JSON fields as `Option`, and the
DOM regions the script writes to as explicit record fields.  Each definition
is a direct translation of the function of the same name in the source.
-/

/-- JavaScript `String.prototype.includes` on character lists: `q` occurs as a
contiguous substring of `s` (prefix check at every offset). -/
def listIncludes : List Char → List Char → Bool
  | [], q => q.isPrefixOf []
  | a :: t, q => q.isPrefixOf (a :: t) || listIncludes t q

/-- JavaScript `symbol.includes(query)`: substring containment on strings. -/
def jsIncludes (s q : String) : Bool := listIncludes s.data q.data

/-- JavaScript `String.prototype.toUpperCase` (character-wise uppercasing). -/
def toUpperCase (s : String) : String := ⟨s.data.map Char.toUpper⟩

/-- `filterSymbols` (main.js 319–328): uppercase the query, then keep exactly
the entries of the in-memory `availableSymbols` that are not selected and
contain the uppercased query, re-rendering the available list with them. -/
def filterSymbols (availableSymbols selectedSymbols : List String)
    (query : String) : List String :=
  let q := toUpperCase query
  availableSymbols.filter fun symbol =>
    !(selectedSymbols.contains symbol) && jsIncludes symbol q

/-! ## Symbol-set state machine (main.js 174–328)

The client's symbol-management state: the two in-memory globals
`availableSymbols` / `selectedSymbols`, the two rendered DOM lists, and the
current value of the search input. -/

/-- The symbol-management state of the page. -/
@[ext] structure SymState where
  availableSymbols : List String
  selectedSymbols : List String
  renderedAvailable : List String
  renderedSelected : List String
  query : String
  deriving Repr, DecidableEq

/-- A user-driven symbol operation: a click on a rendered available entry
(main.js 244–257), a click on a rendered remove button (main.js 286–308), or
an edit of the search input (main.js 68–70 → 319–328). -/
inductive SymOp where
  | select (s : String)
  | deselect (s : String)
  | filter (q : String)
  deriving Repr, DecidableEq

/-- One settled operation.  `select`: only if an entry for the symbol is
rendered; guarded by `!selectedSymbols.includes(symbol)`; pushes onto the
selected list, removes the clicked DOM entry, re-renders the selected list.
`deselect`: only if the symbol is rendered in the selected list; splices the
first occurrence out of `selectedSymbols`, re-renders the selected list,
pushes the symbol onto `availableSymbols` if absent, then re-runs the filter
with the current search value.  `filter`: stores the new input value and
re-renders the available list through `filterSymbols`. -/
def applyOp (st : SymState) : SymOp → SymState
  | .select s =>
    if s ∈ st.renderedAvailable then
      if s ∈ st.selectedSymbols then st
      else
        let sel := st.selectedSymbols ++ [s]
        { st with
          selectedSymbols := sel
          renderedAvailable := st.renderedAvailable.erase s
          renderedSelected := sel }
    else st
  | .deselect s =>
    if s ∈ st.renderedSelected then
      let sel := st.selectedSymbols.erase s
      let avail :=
        if s ∈ st.availableSymbols then st.availableSymbols
        else st.availableSymbols ++ [s]
      { availableSymbols := avail
        selectedSymbols := sel
        renderedAvailable := filterSymbols avail sel st.query
        renderedSelected := sel
        query := st.query }
    else st
  | .filter q =>
    { st with
      query := q
      renderedAvailable := filterSymbols st.availableSymbols st.selectedSymbols q }

/-- The load sequence (main.js 175–226): `loadTradingSymbols` replaces the
selected set wholesale and renders it, then `loadAvailableSymbols` stores the
fetched universe and renders it minus the already-selected symbols.  The
search input starts empty. -/
def loadSeq (selectedData univ : List String) : SymState :=
  { availableSymbols := univ
    selectedSymbols := selectedData
    renderedAvailable := univ.filter fun s => !(selectedData.contains s)
    renderedSelected := selectedData
    query := "" }

/-- Fold a list of settled operations over a state. -/
def applyOps (st : SymState) (ops : List SymOp) : SymState :=
  ops.foldl applyOp st

/-- The inductive invariant the symbol operations maintain: the in-memory
universe and the rendered available list are duplicate-free, and no rendered
available entry is selected. -/
def SymInv (st : SymState) : Prop :=
  st.availableSymbols.Nodup ∧ st.renderedAvailable.Nodup ∧
    ∀ s ∈ st.renderedAvailable, s ∉ st.selectedSymbols

/-- Whether an operation is a select or a search-input edit (no deselect). -/
def SymOp.isSelectOrFilter : SymOp → Bool
  | .deselect _ => false
  | _ => true

/-! ## Performance pipeline (main.js 388–815)

JSON payload shapes as the client consumes them; JavaScript numbers as
rationals, absent fields as `Option`. -/

/-- `stats` block of a performance payload. -/
structure Stats where
  total_trades : Nat
  win_rate : ℚ
  avg_profit : ℚ
  max_drawdown : ℚ
  deriving Repr, DecidableEq

/-- `current_position` block of a performance payload. -/
structure Position where
  symbol : String
  position : Option String
  entry_price : Option ℚ
  position_size : Option ℚ
  stop_loss : Option ℚ
  take_profit_levels : Option (List ℚ)
  deriving Repr, DecidableEq

/-- One closed trade of the `trades` ledger. -/
structure Trade where
  entry_time : Nat
  exit_time : Nat
  direction : String
  entry_price : ℚ
  exit_price : ℚ
  position_size : ℚ
  pnl_pct : ℚ
  exit_reason : String
  deriving Repr, DecidableEq

/-- One `price_data` sample. -/
structure PricePoint where
  timestamp : Nat
  close : ℚ
  deriving Repr, DecidableEq

/-- One `tdi_data` sample. -/
structure TdiPoint where
  timestamp : Nat
  rsi : ℚ
  fast_line : ℚ
  slow_line : ℚ
  market_baseline : ℚ
  upper_band : ℚ
  lower_band : ℚ
  deriving Repr, DecidableEq

/-- A parsed `/api/performance/{symbol}` body. -/
structure PerfPayload where
  error : Option String
  stats : Stats
  current_position : Position
  price_data : List PricePoint
  tdi_data : List TdiPoint
  trades : Option (List Trade)
  deriving Repr, DecidableEq

/-- JavaScript truthiness of an optional numeric field: absent and `0` are
falsy. -/
def truthyNum : Option ℚ → Bool
  | none => false
  | some x => decide (x ≠ 0)

/-- JavaScript truthiness of an optional string field: absent and the empty
string are falsy. -/
def truthyStr : Option String → Bool
  | none => false
  | some s => !s.isEmpty

/-- The `!position.take_profit_levels || length === 0` test of main.js 553:
true when the array is absent or empty (a present array is always truthy in
JavaScript, so only `length === 0` rejects a present one). -/
def tpMissing : Option (List ℚ) → Bool
  | none => true
  | some l => l.isEmpty

/-- `calculateRiskReward` (main.js 551–570): the not-available marker
(`none`, rendered 'N/A') under the JavaScript truthiness guards, otherwise
reward/risk with risk and reward oriented by the direction string. -/
def calculateRiskReward (position : Position) : Option ℚ :=
  if !truthyStr position.position || !truthyNum position.entry_price
      || !truthyNum position.stop_loss || tpMissing position.take_profit_levels then
    none
  else
    let entryPrice := position.entry_price.getD 0
    let stopLoss := position.stop_loss.getD 0
    let takeProfit := (position.take_profit_levels.getD []).headD 0
    if position.position = some "long" then
      some ((takeProfit - entryPrice) / (entryPrice - stopLoss))
    else
      some ((entryPrice - takeProfit) / (stopLoss - entryPrice))

/-- Error-message constants of main.js 424–427. -/
def msgClientNotInit : String := "Binance client is not initialized"

def msgApiKeys : String := "API keys"

def msgNoneType : String :=
  "'NoneType' object has no attribute 'get_historical_klines'"

def apiKeyGuidance : String :=
  "There seems to be an issue with the Binance API connection. Please check your API keys in the configuration and ensure they have the correct permissions."

def warmUpGuidance : String :=
  "This may happen if you've just added this trading pair. Please wait a few minutes for data to be collected, then try again."

/-- The substring test of main.js 424–426 picking the error class. -/
def isBinanceClientError (e : String) : Bool :=
  jsIncludes e msgClientNotInit || jsIncludes e msgApiKeys || jsIncludes e msgNoneType

/-- `additionalInfo` as computed in main.js 422–428. -/
def additionalInfo (e : String) : String :=
  if isBinanceClientError e then apiKeyGuidance else warmUpGuidance

/-- The current-position DOM region (main.js 397–402, 430–438, 471–479,
492–548). -/
inductive PositionPanel where
  | loading
  | errorPanel (message info retrySymbol : String)
  | noPosition (symbol : String)
  | details (position : Position) (riskReward : Option ℚ)
  deriving Repr, DecidableEq

/-- The trade-history table region (main.js 405, 747–779). -/
inductive HistoryView where
  | loading
  | empty
  | rows (trades : List Trade)
  deriving Repr, DecidableEq

/-- The DOM regions the performance pipeline writes: the four per-symbol stat
fields, the current-position panel, the two chart surfaces (`none` =
destroyed), the trade-history table, the two dashboard-wide totals, and the
toast log. -/
@[ext] structure PerfView where
  stats : Stats
  position : PositionPanel
  priceChart : Option (List PricePoint)
  tdiChart : Option (List TdiPoint)
  history : HistoryView
  dashTotalTrades : Nat
  dashWinRate : ℚ
  alerts : List String
  deriving Repr, DecidableEq

/-- `updateCurrentPosition` (main.js 492–548). -/
def updateCurrentPosition (position : Position) : PositionPanel :=
  if !truthyStr position.position then .noPosition position.symbol
  else .details position (calculateRiskReward position)

/-- `updateTradeHistory` (main.js 747–788): an absent or empty ledger shows
the placeholder and returns before the dashboard totals are touched;
otherwise it renders the rows, republishes the total-trade count and
recomputes the win rate as strictly-positive-pnl trades over all trades. -/
def updateTradeHistory (trades : Option (List Trade)) (st : PerfView) : PerfView :=
  match trades with
  | none => { st with history := .empty }
  | some ts =>
    if ts.isEmpty then { st with history := .empty }
    else
      { st with
        history := .rows ts
        dashTotalTrades := ts.length
        dashWinRate :=
          ((ts.filter fun t => decide (t.pnl_pct > 0)).length : ℚ) / (ts.length : ℚ) * 100 }

/-- The synchronous prefix of `loadPerformanceData` (main.js 389–405): zero
the stat fields, show the loading badge, show the loading row. -/
def loadPerformanceDataStart (st : PerfView) : PerfView :=
  { st with
    stats := ⟨0, 0, 0, 0⟩
    position := .loading
    history := .loading }

/-- An HTTP response as `fetch` resolves it: `ok` = status in the 2xx range,
`body` = the JSON parse of the body (`none` when `response.json()` rejects). -/
structure Response (α : Type) where
  ok : Bool
  body : Option α
  deriving Repr, DecidableEq

/-- The catch handler of `loadPerformanceData` (main.js 466–480). -/
def perfCatch (symbol : String) (st : PerfView) : PerfView :=
  { st with
    alerts := st.alerts ++ ["Failed to load performance data. Please try again."]
    position := .errorPanel
      "An unexpected error occurred while loading performance data."
      warmUpGuidance
      symbol }

/-- The resolution of one `/api/performance/{symbol}` fetch (main.js
407–481): a non-2xx status throws into the catch; a body with an `error`
field raises a toast, renders the classified error panel and destroys the
charts; otherwise the payload fans out to the stats, position, chart and
trade-history renderers.  The continuation is keyed by nothing but the
closed-over `symbol` (used only for the retry button). -/
def perfResolve (symbol : String) (response : Response PerfPayload)
    (st : PerfView) : PerfView :=
  if !response.ok then perfCatch symbol st
  else
    match response.body with
    | none => perfCatch symbol st
    | some data =>
      match data.error with
      | some err =>
        { st with
          alerts := st.alerts ++ ["Failed to load performance data: " ++ err]
          position := .errorPanel err (additionalInfo err) symbol
          priceChart := none
          tdiChart := none }
      | none =>
        updateTradeHistory data.trades
          { st with
            stats := data.stats
            position := updateCurrentPosition data.current_position
            priceChart := some data.price_data
            tdiChart := some data.tdi_data }

/-- An event of the cooperative scheduler: a user-triggered fetch being
issued, or an in-flight response settling.  There is no correlation state:
a settle event carries only the closed-over symbol and its response. -/
inductive PerfEvent where
  | issue (symbol : String)
  | settle (symbol : String) (response : Response PerfPayload)
  deriving Repr, DecidableEq

def perfStep (st : PerfView) : PerfEvent → PerfView
  | .issue _ => loadPerformanceDataStart st
  | .settle symbol response => perfResolve symbol response st

/-- Run a sequence of issue/settle events over the view. -/
def runPerf (st : PerfView) (events : List PerfEvent) : PerfView :=
  events.foldl perfStep st

/-- The outcome of `loadConfig`'s continuation chain (main.js 106–133): the
success continuation fills the form from the parsed body; only a rejected
`response.json()` reaches the catch.  The HTTP status is never consulted. -/
inductive LoadConfigOutcome where
  | filled (entries : List (String × String))
  | alerted
  deriving Repr, DecidableEq

def loadConfigResolve (response : Response (List (String × String))) :
    LoadConfigOutcome :=
  match response.body with
  | some data => .filled data
  | none => .alerted

/-- The outcome of `saveConfig`'s response chain (main.js 150–171): the parsed
body's `success` flag alone picks the branch; the HTTP status is never
consulted. -/
structure SaveBody where
  success : Bool
  error : Option String
  deriving Repr, DecidableEq

inductive SaveOutcome where
  | saved
  | failedAlert (error : String)
  | alerted
  deriving Repr, DecidableEq

def saveConfigResolve (response : Response SaveBody) : SaveOutcome :=
  match response.body with
  | none => .alerted
  | some data =>
    if data.success then .saved else .failedAlert (data.error.getD "undefined")

/-- The outcome of a symbol-list fetch chain: the parsed body is applied to
the in-memory state and renders, or the catch raises a toast. -/
inductive LoadSymbolsOutcome where
  | applied (symbols : List String)
  | alerted
  deriving Repr, DecidableEq

/-- The resolution of `loadTradingSymbols`'s chain (main.js 176–201): the
parsed body replaces the selected set wholesale and drives the renders and
the dropdown; only a rejected `response.json()` reaches the catch.  The HTTP
status is never consulted. -/
def loadTradingSymbolsResolve (response : Response (List String)) :
    LoadSymbolsOutcome :=
  match response.body with
  | some data => .applied data
  | none => .alerted

/-- The resolution of `loadAvailableSymbols`'s chain (main.js 208–225): the
parsed body replaces the in-memory universe and the filtered render; only a
rejected `response.json()` reaches the catch.  The HTTP status is never
consulted. -/
def loadAvailableSymbolsResolve (response : Response (List String)) :
    LoadSymbolsOutcome :=
  match response.body with
  | some data => .applied data
  | none => .alerted

/-- The resolution of `saveSelectedSymbols`'s chain (main.js 334–369): the
body's `success` flag alone picks the branch; the HTTP status is never
consulted. -/
def saveSelectedSymbolsResolve (response : Response SaveBody) : SaveOutcome :=
  match response.body with
  | none => .alerted
  | some data =>
    if data.success then .saved else .failedAlert (data.error.getD "undefined")

/-- A parsed `/api/run_strategy/{symbol}` body. -/
structure StrategyBody where
  success : Bool
  action : Option String
  error : Option String
  deriving Repr, DecidableEq

inductive StrategyOutcome where
  | executed (action : String)
  | failedAlert (error : String)
  | alerted
  deriving Repr, DecidableEq

/-- The resolution of `runStrategy`'s chain (main.js 794–814): the body's
`success` flag alone picks the branch (a successful run reports the action
and re-triggers the performance fetch); the HTTP status is never
consulted. -/
def runStrategyResolve (response : Response StrategyBody) : StrategyOutcome :=
  match response.body with
  | none => .alerted
  | some data =>
    if data.success then .executed (data.action.getD "undefined")
    else .failedAlert (data.error.getD "undefined")

/-! ## Config form submission (main.js 136–148) -/

/-- A form control: a checkbox, or any other value-carrying input. -/
inductive FormField where
  | checkbox (nm : String) (checked : Bool) (value : String)
  | input (nm : String) (value : String)
  deriving Repr, DecidableEq

/-- `new FormData(form)`: value-carrying inputs contribute their entry in
document order; an unchecked checkbox contributes nothing, a checked one its
value. -/
def formDataOf : List FormField → List (String × String)
  | [] => []
  | .checkbox nm checked v :: rest =>
    if checked then (nm, v) :: formDataOf rest else formDataOf rest
  | .input nm v :: rest => (nm, v) :: formDataOf rest

/-- `FormData.get`: the first value stored under the key. -/
def fdGet : List (String × String) → String → Option String
  | [], _ => none
  | e :: rest, nm => if e.1 = nm then some e.2 else fdGet rest nm

/-- `FormData.set`: replace the first entry under the key with the new value,
dropping any later entries under it; append when the key is absent. -/
def fdSet : List (String × String) → String → String → List (String × String)
  | [], nm, v => [(nm, v)]
  | e :: rest, nm, v =>
    if e.1 = nm then (nm, v) :: rest.filter (fun e' => e'.1 != nm)
    else e :: fdSet rest nm v

/-- The form's checkboxes in document order (`querySelectorAll`). -/
def checkboxesOf : List FormField → List (String × Bool)
  | [] => []
  | .checkbox nm checked _ :: rest => (nm, checked) :: checkboxesOf rest
  | .input _ _ :: rest => checkboxesOf rest

/-- One step of the checkbox pass of main.js 143–148: an unchecked checkbox
has its key forced to the string "False". -/
def forceUnchecked (fd : List (String × String)) (cb : String × Bool) :
    List (String × String) :=
  if cb.2 then fd else fdSet fd cb.1 "False"

/-- The form data `saveConfig` transmits (main.js 139–148): the submitted
form data, then every unchecked checkbox's key forced to "False". -/
def saveConfigFormData (form : List FormField) : List (String × String) :=
  (checkboxesOf form).foldl forceUnchecked (formDataOf form)

/-- An initial page view: zeroed stats, loading badges, no charts, no toasts. -/
def viewInit : PerfView :=
  ⟨⟨0, 0, 0, 0⟩, .loading, none, none, .loading, 0, 0, []⟩

/-- Concrete race payloads for the two overlapping requests. -/
def payloadA : PerfPayload :=
  ⟨none, ⟨1, 1, 0, 0⟩, ⟨"AAAUSDT", none, none, none, none, none⟩, [], [],
    some [⟨0, 1, "long", 1, 2, 1, 1, "tp"⟩]⟩

def payloadB : PerfPayload :=
  ⟨none, ⟨0, 0, 0, 0⟩, ⟨"BBBUSDT", none, none, none, none, none⟩, [], [], some []⟩

/-- `listIncludes` decides the infix (contiguous-substring) relation. -/
theorem listIncludes_iff_infix (s q : List Char) :
    listIncludes s q = true ↔ q <:+: s := by
  induction s with
  | nil =>
    simp [listIncludes, List.isPrefixOf_iff_prefix]
  | cons a t ih =>
    simp only [listIncludes, Bool.or_eq_true, List.isPrefixOf_iff_prefix, ih,
      List.infix_cons_iff]

theorem jsIncludes_iff (s q : String) :
    jsIncludes s q = true ↔ q.data <:+: s.data :=
  listIncludes_iff_infix s.data q.data

theorem jsIncludes_eq_decide (s q : String) :
    jsIncludes s q = decide (q.data <:+: s.data) := by
  by_cases hq : q.data <:+: s.data
  · simp [hq, (jsIncludes_iff s q).mpr hq]
  · have hb : jsIncludes s q = false := by
      cases hb : jsIncludes s q
      · rfl
      · exact absurd ((jsIncludes_iff s q).mp hb) hq
    rw [hb, eq_comm, decide_eq_false_iff_not]
    exact hq

theorem contains_eq_decide_mem (l : List String) (a : String) :
    l.contains a = decide (a ∈ l) := by
  by_cases h : a ∈ l
  · simp [List.contains, List.elem_iff, h]
  · simp [List.contains, List.elem_iff, h]

/-- C5: `filter(query)` uppercases the query and produces exactly the
symbols of the available collection that are not selected and contain the
uppercased query as a contiguous substring (not merely a prefix), in their
original order; with the spec's worked example and a non-prefix match. -/
theorem filterSymbols_substring_semantics :
    (∀ (avail sel : List String) (q : String),
        filterSymbols avail sel q
          = avail.filter fun s => decide (s ∉ sel ∧ (toUpperCase q).data <:+: s.data))
    ∧ (∀ (avail sel : List String) (q s : String),
        s ∈ filterSymbols avail sel q
          ↔ s ∈ avail ∧ s ∉ sel ∧ (toUpperCase q).data <:+: s.data)
    ∧ (∀ (avail sel : List String) (q : String),
        (filterSymbols avail sel q).Sublist avail)
    ∧ filterSymbols ["BTCUSDT", "ETHUSDT", "BNBUSDT"] ["ETHUSDT"] "BT" = ["BTCUSDT"]
    ∧ filterSymbols ["BTCUSDT", "ETHUSDT", "BNBUSDT"] [] "nb" = ["BNBUSDT"] := by
  refine ⟨fun avail sel q => ?_, fun avail sel q s => ?_, fun avail sel q => ?_, ?_, ?_⟩
  · apply List.filter_congr
    intro s _
    by_cases hm : s ∈ sel <;> by_cases hi : (toUpperCase q).data <:+: s.data <;>
      simp [hm, hi, contains_eq_decide_mem, jsIncludes_eq_decide]
  · simp only [filterSymbols, List.mem_filter, Bool.and_eq_true, Bool.not_eq_true',
      contains_eq_decide_mem, decide_eq_false_iff_not, jsIncludes_eq_decide,
      decide_eq_true_eq, and_assoc]
  · exact List.filter_sublist avail
  · decide
  · decide

/-- Every entry the filter renders fails the `selectedSymbols.includes` test. -/
theorem filterSymbols_not_selected (avail sel : List String) (q : String) :
    ∀ s ∈ filterSymbols avail sel q, s ∉ sel := by
  intro s hs
  simp only [filterSymbols, List.mem_filter, Bool.and_eq_true, Bool.not_eq_true',
    contains_eq_decide_mem, decide_eq_false_iff_not] at hs
  exact hs.2.1

/-- The filtered render of a duplicate-free list is duplicate-free. -/
theorem filterSymbols_nodup (avail sel : List String) (q : String)
    (h : avail.Nodup) : (filterSymbols avail sel q).Nodup :=
  h.filter _

theorem symInv_loadSeq (selectedData univ : List String) (hU : univ.Nodup) :
    SymInv (loadSeq selectedData univ) := by
  refine ⟨hU, hU.filter _, ?_⟩
  intro s hs
  rw [loadSeq, List.mem_filter, Bool.not_eq_true', contains_eq_decide_mem,
    decide_eq_false_iff_not] at hs
  exact hs.2

theorem symInv_applyOp (st : SymState) (op : SymOp) (h : SymInv st) :
    SymInv (applyOp st op) := by
  obtain ⟨hA, hR, hD⟩ := h
  cases op with
  | select s =>
    by_cases h1 : s ∈ st.renderedAvailable
    · by_cases h2 : s ∈ st.selectedSymbols
      · simpa [applyOp, h1, h2] using ⟨hA, hR, hD⟩
      · simp only [applyOp, h1, h2, if_true, if_false]
        refine ⟨hA, hR.erase s, ?_⟩
        intro x hx
        have hx' := hR.mem_erase_iff.mp hx
        rw [List.mem_append, List.mem_singleton]
        rintro (hc | hc)
        · exact hD x hx'.2 hc
        · exact hx'.1 hc
    · simpa [applyOp, h1] using ⟨hA, hR, hD⟩
  | deselect s =>
    by_cases h1 : s ∈ st.renderedSelected
    · simp only [applyOp, h1, if_true]
      by_cases h2 : s ∈ st.availableSymbols
      · exact ⟨by simpa [h2] using hA,
          by simpa [h2] using filterSymbols_nodup _ _ _ hA,
          by simpa [h2] using filterSymbols_not_selected _ _ st.query⟩
      · have hA' : (st.availableSymbols ++ [s]).Nodup := by
          rw [List.nodup_append]
          exact ⟨hA, List.nodup_singleton s,
            fun x hx hxs => h2 (by rwa [List.mem_singleton.mp hxs] at hx)⟩
        exact ⟨by simpa [h2] using hA',
          by simpa [h2] using filterSymbols_nodup _ _ _ hA',
          by simpa [h2] using filterSymbols_not_selected _ _ st.query⟩
    · simpa [applyOp, h1] using ⟨hA, hR, hD⟩
  | filter q =>
    exact ⟨hA, filterSymbols_nodup _ _ _ hA, filterSymbols_not_selected _ _ q⟩

theorem symInv_applyOps (st : SymState) (ops : List SymOp) (h : SymInv st) :
    SymInv (applyOps st ops) := by
  induction ops generalizing st with
  | nil => exact h
  | cons op rest ih =>
    rw [applyOps, List.foldl_cons]
    exact ih (applyOp st op) (symInv_applyOp st op h)

/-- C1: starting from a state produced by the load sequence (with a
duplicate-free fetched universe), after every sequence of select, deselect
and filter operations the rendered available collection and the selected
collection are disjoint: no symbol is a member of both. -/
theorem available_selected_disjoint (selectedData univ : List String)
    (ops : List SymOp) (hU : univ.Nodup) :
    ∀ s ∈ (applyOps (loadSeq selectedData univ) ops).renderedAvailable,
      s ∉ (applyOps (loadSeq selectedData univ) ops).selectedSymbols :=
  (symInv_applyOps _ ops (symInv_loadSeq selectedData univ hU)).2.2

/-- Disjointness witness at a concrete load state and operation sequence. -/
theorem available_selected_disjoint_witness :
    (["BTCUSDT", "ETHUSDT"] : List String).Nodup ∧
      "BTCUSDT" ∉ (applyOps (loadSeq ["ETHUSDT"] ["BTCUSDT", "ETHUSDT"])
        [SymOp.deselect "ETHUSDT"]).selectedSymbols :=
  ⟨by decide, available_selected_disjoint ["ETHUSDT"] ["BTCUSDT", "ETHUSDT"]
    [SymOp.deselect "ETHUSDT"] (by decide) "BTCUSDT" (by decide)⟩

theorem applyOp_available_unchanged (st : SymState) (op : SymOp)
    (h : op.isSelectOrFilter = true) :
    (applyOp st op).availableSymbols = st.availableSymbols := by
  cases op with
  | select s =>
    by_cases h1 : s ∈ st.renderedAvailable
    · by_cases h2 : s ∈ st.selectedSymbols
      · simp [applyOp, h1, h2]
      · simp [applyOp, h1, h2]
    · simp [applyOp, h1]
  | deselect s => exact absurd h (by simp [SymOp.isSelectOrFilter])
  | filter q => rfl

theorem applyOps_available_unchanged (st : SymState) (ops : List SymOp)
    (h : ∀ op ∈ ops, op.isSelectOrFilter = true) :
    (applyOps st ops).availableSymbols = st.availableSymbols := by
  induction ops generalizing st with
  | nil => rfl
  | cons op rest ih =>
    rw [applyOps, List.foldl_cons]
    rw [show List.foldl applyOp (applyOp st op) rest = applyOps (applyOp st op) rest from rfl]
    rw [ih (applyOp st op) fun o ho => h o (List.mem_cons_of_mem op ho)]
    exact applyOp_available_unchanged st op (h op (List.mem_cons_self op rest))

/-- C9: a select via the available list changes only the selected set (it
gains the symbol) and the rendered available list (its entry is removed); the
in-memory `availableSymbols` universe and the search input are untouched, so
after a load the universe survives every select/filter sequence unchanged,
and the exclusion of selected symbols is recomputed on each filter render
from that universe rather than stored. -/
theorem select_leaves_universe_unchanged :
    (∀ (st : SymState) (s : String),
        (applyOp st (.select s)).availableSymbols = st.availableSymbols
          ∧ (applyOp st (.select s)).query = st.query)
    ∧ (∀ (st : SymState) (s : String),
        s ∈ st.renderedAvailable → s ∉ st.selectedSymbols →
          (applyOp st (.select s)).selectedSymbols = st.selectedSymbols ++ [s]
            ∧ (applyOp st (.select s)).renderedAvailable = st.renderedAvailable.erase s)
    ∧ (∀ (selectedData univ : List String) (ops : List SymOp),
        (∀ op ∈ ops, op.isSelectOrFilter = true) →
          (applyOps (loadSeq selectedData univ) ops).availableSymbols = univ)
    ∧ (∀ (st : SymState) (q : String),
        (applyOp st (.filter q)).renderedAvailable
          = filterSymbols st.availableSymbols st.selectedSymbols q) := by
  refine ⟨fun st s => ?_, fun st s h1 h2 => ?_, fun selectedData univ ops h => ?_,
    fun st q => rfl⟩
  · by_cases h1 : s ∈ st.renderedAvailable
    · by_cases h2 : s ∈ st.selectedSymbols
      · simp [applyOp, h1, h2]
      · simp [applyOp, h1, h2]
    · simp [applyOp, h1]
  · constructor
    · simp [applyOp, h1, h2]
    · simp [applyOp, h1, h2]
  · exact applyOps_available_unchanged (loadSeq selectedData univ) ops h

/-- Frame witness: a concrete select then filter leaves the loaded universe
in memory intact. -/
theorem select_leaves_universe_unchanged_witness :
    (applyOp (loadSeq ["ETHUSDT"] ["BTCUSDT", "ETHUSDT"])
        (SymOp.select "BTCUSDT")).availableSymbols = ["BTCUSDT", "ETHUSDT"]
      ∧ (applyOp (loadSeq ["ETHUSDT"] ["BTCUSDT", "ETHUSDT"])
          (SymOp.select "BTCUSDT")).selectedSymbols = ["ETHUSDT", "BTCUSDT"]
      ∧ (applyOps (loadSeq ["ETHUSDT"] ["BTCUSDT", "ETHUSDT"])
          [SymOp.select "BTCUSDT", SymOp.filter "b"]).availableSymbols
        = ["BTCUSDT", "ETHUSDT"] :=
  ⟨(select_leaves_universe_unchanged.1 (loadSeq ["ETHUSDT"] ["BTCUSDT", "ETHUSDT"])
      "BTCUSDT").1,
   (select_leaves_universe_unchanged.2.1 (loadSeq ["ETHUSDT"] ["BTCUSDT", "ETHUSDT"])
      "BTCUSDT" (by decide) (by decide)).1,
   select_leaves_universe_unchanged.2.2.1 ["ETHUSDT"] ["BTCUSDT", "ETHUSDT"]
      [SymOp.select "BTCUSDT", SymOp.filter "b"] (by decide)⟩

theorem updateTradeHistory_alerts (trades : Option (List Trade)) (st : PerfView) :
    (updateTradeHistory trades st).alerts = st.alerts := by
  cases trades with
  | none => rfl
  | some ts =>
    by_cases h : ts.isEmpty <;> simp [updateTradeHistory, h]

theorem updateTradeHistory_rows (ts : List Trade) (st : PerfView) (h : ts ≠ []) :
    updateTradeHistory (some ts) st =
      { st with
        history := .rows ts
        dashTotalTrades := ts.length
        dashWinRate :=
          ((ts.filter fun t => decide (t.pnl_pct > 0)).length : ℚ) / (ts.length : ℚ) * 100 } := by
  simp [updateTradeHistory, h]

/-- C6: trade-history rendering republishes the dashboard-wide win rate as
the count of trades with strictly positive `pnl_pct` over all trades (a
trade with `pnl_pct` exactly 0 is not a win) times 100, together with the
total-trade count, computed from the trade list alone — replacing the
payload's `stats.win_rate` in it changes nothing — and the spec's example
gives 100/3 ≈ 33.33%. -/
theorem trade_history_win_rate (ts : List Trade) (st : PerfView) (h : ts ≠ []) :
    (updateTradeHistory (some ts) st).dashWinRate
        = ((ts.filter fun t => decide (0 < t.pnl_pct)).length : ℚ) / (ts.length : ℚ) * 100
    ∧ (updateTradeHistory (some ts) st).dashTotalTrades = ts.length
    ∧ (∀ t ∈ ts, t.pnl_pct = 0 → t ∉ ts.filter fun t' => decide (0 < t'.pnl_pct))
    ∧ (∀ (s1 s2 : Stats) (pos : Position) (pd : List PricePoint)
        (td : List TdiPoint) (sym : String) (st' : PerfView),
        (perfResolve sym ⟨true, some ⟨none, s1, pos, pd, td, some ts⟩⟩ st').dashWinRate
          = (perfResolve sym ⟨true, some ⟨none, s2, pos, pd, td, some ts⟩⟩ st').dashWinRate)
    ∧ (updateTradeHistory
          (some [⟨0, 0, "long", 0, 0, 0, 2/100, ""⟩, ⟨0, 0, "long", 0, 0, 0, -1/100, ""⟩,
            ⟨0, 0, "long", 0, 0, 0, 0, ""⟩]) st).dashWinRate = 100 / 3 := by
  refine ⟨?_, ?_, ?_, ?_, ?_⟩
  · rw [updateTradeHistory_rows ts st h]
  · rw [updateTradeHistory_rows ts st h]
  · intro t _ h0 hmem
    rw [List.mem_filter] at hmem
    rw [h0] at hmem
    simp at hmem
  · intro s1 s2 pos pd td sym st'
    simp only [perfResolve, Bool.not_true, Bool.false_eq_true, if_false,
      updateTradeHistory_rows _ _ h]
  · norm_num [updateTradeHistory, List.filter]

/-- Concrete win-rate recomputation: the spec's three-trade example. -/
theorem trade_history_win_rate_witness :
    (updateTradeHistory
        (some [⟨0, 0, "long", 0, 0, 0, 2/100, ""⟩, ⟨0, 0, "long", 0, 0, 0, -1/100, ""⟩,
          ⟨0, 0, "long", 0, 0, 0, 0, ""⟩]) viewInit).dashWinRate = 100 / 3 :=
  (trade_history_win_rate
    [⟨0, 0, "long", 0, 0, 0, 2/100, ""⟩, ⟨0, 0, "long", 0, 0, 0, -1/100, ""⟩,
      ⟨0, 0, "long", 0, 0, 0, 0, ""⟩] viewInit (by decide)).2.2.2.2

/-- C10: an absent or empty trade list renders the no-history placeholder and
returns before the dashboard totals are touched, so the previously displayed
totals survive and every published win rate comes from a strictly positive
trade count. -/
theorem empty_trade_history_guard (st : PerfView) (trades : Option (List Trade))
    (h : trades = none ∨ trades = some []) :
    (updateTradeHistory trades st).history = .empty
    ∧ (updateTradeHistory trades st).dashTotalTrades = st.dashTotalTrades
    ∧ (updateTradeHistory trades st).dashWinRate = st.dashWinRate
    ∧ (∀ tr : Option (List Trade),
        (updateTradeHistory tr st).dashWinRate = st.dashWinRate
          ∨ ∃ ts : List Trade, tr = some ts ∧ 0 < ts.length
              ∧ (updateTradeHistory tr st).dashWinRate
                = ((ts.filter fun t => decide (0 < t.pnl_pct)).length : ℚ)
                    / (ts.length : ℚ) * 100) := by
  have hmain : updateTradeHistory trades st = { st with history := .empty } := by
    rcases h with h | h <;> rw [h] <;> simp [updateTradeHistory]
  refine ⟨by rw [hmain], by rw [hmain], by rw [hmain], ?_⟩
  intro tr
  cases tr with
  | none => exact Or.inl rfl
  | some ts =>
    rcases eq_or_ne ts [] with hts | hts
    · subst hts
      exact Or.inl rfl
    · right
      exact ⟨ts, rfl, List.length_pos.mpr hts, by rw [updateTradeHistory_rows ts st hts]⟩

/-- Concrete guard: an absent ledger leaves the dashboard totals alone. -/
theorem empty_trade_history_guard_witness :
    (updateTradeHistory none viewInit).history = HistoryView.empty
      ∧ (updateTradeHistory none viewInit).dashTotalTrades = viewInit.dashTotalTrades
      ∧ (updateTradeHistory none viewInit).dashWinRate = viewInit.dashWinRate :=
  ⟨(empty_trade_history_guard viewInit none (Or.inl rfl)).1,
   (empty_trade_history_guard viewInit none (Or.inl rfl)).2.1,
   (empty_trade_history_guard viewInit none (Or.inl rfl)).2.2.1⟩

theorem perfResolve_success (p : PerfPayload) (sym : String) (st : PerfView)
    (hp : p.error = none) :
    perfResolve sym ⟨true, some p⟩ st
      = updateTradeHistory p.trades
          { st with
            stats := p.stats
            position := updateCurrentPosition p.current_position
            priceChart := some p.price_data
            tdiChart := some p.tdi_data } := by
  simp [perfResolve, hp]

/-- C2: with a request for symbol A in flight, a request for B issued and
settling first, then A settling: the final view is exactly the view of a run
where only A's fetch happened — whichever response settles last overwrites
the rendered state — and a successful settle is applied identically whatever
symbol it was issued for: nothing correlates or discards stale responses. -/
theorem last_settled_response_wins (st : PerfView) (A B : String)
    (pa pb : PerfPayload) (ta : List Trade)
    (hpa : pa.error = none) (hpb : pb.error = none)
    (hta : pa.trades = some ta) (hne : ta ≠ []) :
    runPerf st [.issue A, .issue B, .settle B ⟨true, some pb⟩,
        .settle A ⟨true, some pa⟩]
      = runPerf st [.issue A, .settle A ⟨true, some pa⟩]
    ∧ (runPerf st [.issue A, .issue B, .settle B ⟨true, some pb⟩,
        .settle A ⟨true, some pa⟩]).position
      = updateCurrentPosition pa.current_position
    ∧ (∀ (s1 s2 : String) (st' : PerfView),
        perfResolve s1 ⟨true, some pa⟩ st' = perfResolve s2 ⟨true, some pa⟩ st') := by
  have hrun : runPerf st [.issue A, .issue B, .settle B ⟨true, some pb⟩,
      .settle A ⟨true, some pa⟩]
      = perfResolve A ⟨true, some pa⟩
          (perfResolve B ⟨true, some pb⟩
            (loadPerformanceDataStart (loadPerformanceDataStart st))) := rfl
  have hrunA : runPerf st [.issue A, .settle A ⟨true, some pa⟩]
      = perfResolve A ⟨true, some pa⟩ (loadPerformanceDataStart st) := rfl
  have hstart : loadPerformanceDataStart (loadPerformanceDataStart st)
      = loadPerformanceDataStart st := rfl
  have halerts : ∀ st' : PerfView,
      (perfResolve B ⟨true, some pb⟩ st').alerts = st'.alerts := by
    intro st'
    rw [perfResolve_success pb B st' hpb, updateTradeHistory_alerts]
  have heq : runPerf st [.issue A, .issue B, .settle B ⟨true, some pb⟩,
      .settle A ⟨true, some pa⟩] = runPerf st [.issue A, .settle A ⟨true, some pa⟩] := by
    rw [hrun, hrunA, hstart]
    rw [perfResolve_success pa A _ hpa, perfResolve_success pa A _ hpa, hta,
      updateTradeHistory_rows ta _ hne, updateTradeHistory_rows ta _ hne]
    ext1 <;> simp [halerts (loadPerformanceDataStart st)]
  refine ⟨heq, ?_, fun s1 s2 st' => by
    rw [perfResolve_success pa s1 st' hpa, perfResolve_success pa s2 st' hpa]⟩
  rw [heq, hrunA, perfResolve_success pa A _ hpa, hta, updateTradeHistory_rows ta _ hne]

/-- Concrete race run: B settles first, A settles last, A's view stands. -/
theorem last_settled_response_wins_witness :
    runPerf viewInit [.issue "AAAUSDT", .issue "BBBUSDT",
        .settle "BBBUSDT" ⟨true, some payloadB⟩, .settle "AAAUSDT" ⟨true, some payloadA⟩]
      = runPerf viewInit [.issue "AAAUSDT", .settle "AAAUSDT" ⟨true, some payloadA⟩]
    ∧ (runPerf viewInit [.issue "AAAUSDT", .issue "BBBUSDT",
        .settle "BBBUSDT" ⟨true, some payloadB⟩,
        .settle "AAAUSDT" ⟨true, some payloadA⟩]).position
      = updateCurrentPosition payloadA.current_position :=
  ⟨(last_settled_response_wins viewInit "AAAUSDT" "BBBUSDT" payloadA payloadB
      [⟨0, 1, "long", 1, 2, 1, 1, "tp"⟩] rfl rfl rfl (by decide)).1,
   (last_settled_response_wins viewInit "AAAUSDT" "BBBUSDT" payloadA payloadB
      [⟨0, 1, "long", 1, 2, 1, 1, "tp"⟩] rfl rfl rfl (by decide)).2.1⟩

/-- C3 counterexample: a non-2xx response with a parseable body still takes
the success path on the config calls — the config-load continuation fills
the form and the config-save continuation reports success — so it is false
that every backend call treats a non-2xx status as failure. -/
theorem non2xx_body_takes_success_path :
    loadConfigResolve ⟨false, some [("TRADING_ENABLED", "True")]⟩
        = LoadConfigOutcome.filled [("TRADING_ENABLED", "True")]
      ∧ saveConfigResolve ⟨false, some ⟨true, none⟩⟩ = SaveOutcome.saved := by
  exact ⟨rfl, rfl⟩

/-- C3 amended: only the performance fetch consults `response.ok`; a non-2xx
performance response lands in the catch handler whatever body it carries
(its success fan-out never runs), while the config load/save, symbol
load/save and strategy-trigger chains ignore the status entirely — each
resolves a non-2xx response exactly as it resolves a 2xx response with the
same body, so a parseable body takes the success path there. -/
theorem non2xx_only_performance_fails (symbol : String) (body : Option PerfPayload)
    (st : PerfView) (entries : List (String × String)) (save : SaveBody)
    (confBody : Option (List (String × String))) (symsBody : Option (List String))
    (saveBody : Option SaveBody) (stratBody : Option StrategyBody) :
    perfResolve symbol ⟨false, body⟩ st = perfCatch symbol st
    ∧ (perfResolve symbol ⟨false, body⟩ st).stats = st.stats
    ∧ loadConfigResolve ⟨false, some entries⟩ = LoadConfigOutcome.filled entries
    ∧ saveConfigResolve ⟨false, some save⟩ = saveConfigResolve ⟨true, some save⟩
    ∧ loadConfigResolve ⟨false, confBody⟩ = loadConfigResolve ⟨true, confBody⟩
    ∧ loadTradingSymbolsResolve ⟨false, symsBody⟩
        = loadTradingSymbolsResolve ⟨true, symsBody⟩
    ∧ loadAvailableSymbolsResolve ⟨false, symsBody⟩
        = loadAvailableSymbolsResolve ⟨true, symsBody⟩
    ∧ saveSelectedSymbolsResolve ⟨false, saveBody⟩
        = saveSelectedSymbolsResolve ⟨true, saveBody⟩
    ∧ runStrategyResolve ⟨false, stratBody⟩ = runStrategyResolve ⟨true, stratBody⟩
    ∧ (∀ ss : List String,
        loadTradingSymbolsResolve ⟨false, some ss⟩ = LoadSymbolsOutcome.applied ss)
    ∧ (∀ ss : List String,
        loadAvailableSymbolsResolve ⟨false, some ss⟩ = LoadSymbolsOutcome.applied ss)
    ∧ saveSelectedSymbolsResolve ⟨false, some ⟨true, none⟩⟩ = SaveOutcome.saved
    ∧ (∀ act : String,
        runStrategyResolve ⟨false, some ⟨true, some act, none⟩⟩
          = StrategyOutcome.executed act) := by
  exact ⟨rfl, rfl, rfl, rfl, rfl, rfl, rfl, rfl, rfl, fun ss => rfl, fun ss => rfl,
    rfl, fun act => rfl⟩

/-- C4 counterexample: an open long position with entry price 0 present
(stop loss 95, take-profit [110]) renders the not-available marker even
though every field the claim names is present, because JavaScript truthiness
treats the price 0 as absent — the claimed formula would give some value. -/
theorem risk_reward_zero_entry_counterexample :
    calculateRiskReward ⟨"BTCUSDT", some "long", some 0, some 1, some 95, some [110]⟩
        = none
      ∧ (⟨"BTCUSDT", some "long", some 0, some 1, some 95, some [110]⟩
          : Position).entry_price.isSome = true
      ∧ some ((110 - 0) / (0 - 95) : ℚ) ≠ (none : Option ℚ) := by
  refine ⟨by decide, rfl, by decide⟩

/-- C4 amended: for an open position whose direction string is nonempty and
whose entry price and stop loss are present and nonzero, with a nonempty
take-profit list, the rendered ratio is (T−E)/(E−S) for direction "long" and
(E−T)/(S−E) for any other direction; the not-available marker results when
the direction is absent, any of entry price or stop loss is absent (or zero,
by JavaScript truthiness), or the take-profit levels are absent or empty, or
there is no open position; with the spec's worked examples. -/
theorem risk_reward_formula (sym dir : String) (e s : ℚ) (ps : Option ℚ)
    (tp : List ℚ) (he : e ≠ 0) (hs : s ≠ 0) (htp : tp ≠ []) (hdir : dir ≠ "")
    (hshort : dir ≠ "long") :
    calculateRiskReward ⟨sym, some "long", some e, ps, some s, some tp⟩
        = some ((tp.headD 0 - e) / (e - s))
    ∧ calculateRiskReward ⟨sym, some dir, some e, ps, some s, some tp⟩
        = some ((e - tp.headD 0) / (s - e))
    ∧ calculateRiskReward ⟨sym, none, some e, ps, some s, some tp⟩ = none
    ∧ calculateRiskReward ⟨sym, some dir, none, ps, some s, some tp⟩ = none
    ∧ calculateRiskReward ⟨sym, some dir, some e, ps, none, some tp⟩ = none
    ∧ calculateRiskReward ⟨sym, some dir, some e, ps, some s, none⟩ = none
    ∧ calculateRiskReward ⟨sym, some dir, some e, ps, some s, some []⟩ = none
    ∧ calculateRiskReward ⟨sym, some "long", some 100, ps, some 95, some [110]⟩
        = some 2
    ∧ calculateRiskReward ⟨sym, some "short", some 100, ps, some 105, some [90]⟩
        = some 2
    ∧ calculateRiskReward ⟨sym, some "long", some 100, ps, none, some [110]⟩ = none := by
  have hdir' : (some dir = some "long") = False := by
    simp [hshort]
  have hde : String.isEmpty dir = false := by
    cases hb : dir.isEmpty
    · rfl
    · exact absurd ((String.isEmpty_iff dir).mp hb) hdir
  have hempty : tp.isEmpty = false := by
    cases hb : tp.isEmpty
    · rfl
    · exact absurd (List.isEmpty_iff.mp hb) htp
  have hlongE : ("long" : String).isEmpty = false := by decide
  have hshortE : ("short" : String).isEmpty = false := by decide
  refine ⟨?_, ?_, ?_, ?_, ?_, ?_, ?_, ?_, ?_, ?_⟩
  · simp [calculateRiskReward, truthyStr, truthyNum, tpMissing, he, hs, hempty,
      hlongE]
  · simp [calculateRiskReward, truthyStr, truthyNum, tpMissing, he, hs, hempty,
      hde, hdir']
  · simp [calculateRiskReward, truthyStr]
  · simp [calculateRiskReward, truthyStr, truthyNum, hde]
  · simp [calculateRiskReward, truthyStr, truthyNum, hde, he]
  · simp [calculateRiskReward, truthyStr, truthyNum, tpMissing, hde, he, hs]
  · simp [calculateRiskReward, truthyStr, truthyNum, tpMissing, hde, he, hs]
  · norm_num [calculateRiskReward, truthyStr, truthyNum, tpMissing, hlongE]
  · norm_num [calculateRiskReward, truthyStr, truthyNum, tpMissing, hshortE]
  · simp [calculateRiskReward, truthyStr, truthyNum, hde, he]

/-- Concrete risk/reward renders: the spec's long and short examples. -/
theorem risk_reward_formula_witness :
    calculateRiskReward ⟨"BTCUSDT", some "long", some 100, none, some 95, some [110]⟩
        = some ((([110] : List ℚ).headD 0 - 100) / (100 - 95))
      ∧ calculateRiskReward ⟨"BTCUSDT", some "short", some 100, none, some 95, some [110]⟩
        = some ((100 - ([110] : List ℚ).headD 0) / (95 - 100)) :=
  ⟨(risk_reward_formula "BTCUSDT" "short" 100 95 none [110] (by norm_num) (by norm_num)
      (by decide) (by decide) (by decide)).1,
   (risk_reward_formula "BTCUSDT" "short" 100 95 none [110] (by norm_num) (by norm_num)
      (by decide) (by decide) (by decide)).2.1⟩

theorem fdGet_cons (e : String × String) (rest : List (String × String))
    (nm : String) :
    fdGet (e :: rest) nm = if e.1 = nm then some e.2 else fdGet rest nm := rfl

theorem fdSet_cons (e : String × String) (rest : List (String × String))
    (nm v : String) :
    fdSet (e :: rest) nm v
      = if e.1 = nm then (nm, v) :: rest.filter (fun e' => e'.1 != nm)
        else e :: fdSet rest nm v := rfl

theorem fdGet_fdSet (fd : List (String × String)) (nm v : String) :
    fdGet (fdSet fd nm v) nm = some v := by
  induction fd with
  | nil =>
    show fdGet [(nm, v)] nm = some v
    rw [fdGet_cons, if_pos rfl]
  | cons e rest ih =>
    rw [fdSet_cons]
    by_cases h : e.1 = nm
    · rw [if_pos h, fdGet_cons, if_pos rfl]
    · rw [if_neg h, fdGet_cons, if_neg h, ih]

theorem fdGet_filter_ne (fd : List (String × String)) (a b : String)
    (h : b ≠ a) :
    fdGet (fd.filter fun e => e.1 != a) b = fdGet fd b := by
  induction fd with
  | nil => rfl
  | cons e rest ih =>
    rw [List.filter_cons]
    by_cases he : e.1 = a
    · have hbe : e.1 ≠ b := fun hc => h (hc ▸ he)
      have hcond : ¬((e.1 != a) = true) := by simp [he]
      rw [if_neg hcond, ih, fdGet_cons, if_neg hbe]
    · have hcond : (e.1 != a) = true := by simp [he]
      rw [if_pos hcond, fdGet_cons, fdGet_cons, ih]

theorem fdGet_fdSet_ne (fd : List (String × String)) (a b v : String)
    (h : b ≠ a) : fdGet (fdSet fd a v) b = fdGet fd b := by
  induction fd with
  | nil =>
    show fdGet [(a, v)] b = none
    rw [fdGet_cons, if_neg (fun hc => h hc.symm)]
    rfl
  | cons e rest ih =>
    rw [fdSet_cons]
    by_cases he : e.1 = a
    · have hbe : e.1 ≠ b := fun hc => h (hc ▸ he)
      rw [if_pos he, fdGet_cons, fdGet_cons, if_neg (fun hc => h hc.symm),
        if_neg hbe]
      exact fdGet_filter_ne rest a b h
    · rw [if_neg he, fdGet_cons, fdGet_cons, ih]

/-- Once a key reads "False", the remaining checkbox pass keeps it "False"
(every write of the pass writes "False"). -/
theorem forceUnchecked_keeps_false (cbs : List (String × Bool))
    (fd : List (String × String)) (nm : String)
    (h : fdGet fd nm = some "False") :
    fdGet (cbs.foldl forceUnchecked fd) nm = some "False" := by
  induction cbs generalizing fd with
  | nil => exact h
  | cons cb rest ih =>
    rw [List.foldl_cons]
    apply ih
    cases hc : cb.2
    · have hcond : ¬(cb.2 = true) := by simp [hc]
      rw [forceUnchecked, if_neg hcond]
      by_cases hn : nm = cb.1
      · rw [hn, fdGet_fdSet]
      · rw [fdGet_fdSet_ne fd cb.1 nm "False" hn]
        exact h
    · rwa [forceUnchecked, if_pos hc]

theorem forceUnchecked_sets_false (cbs : List (String × Bool))
    (fd : List (String × String)) (nm : String) (h : (nm, false) ∈ cbs) :
    fdGet (cbs.foldl forceUnchecked fd) nm = some "False" := by
  induction cbs generalizing fd with
  | nil => cases h
  | cons cb rest ih =>
    rw [List.foldl_cons]
    rcases List.mem_cons.mp h with heq | hmem
    · apply forceUnchecked_keeps_false
      rw [← heq]
      show fdGet (if false then fd else fdSet fd nm "False") nm = some "False"
      rw [if_neg (by simp)]
      exact fdGet_fdSet fd nm "False"
    · exact ih (forceUnchecked fd cb) hmem

/-- C8: on every configuration save, each unchecked checkbox is present in
the transmitted form data under its own name with the exact string "False" —
never omitted from the payload. -/
theorem unchecked_checkbox_sent_false (form : List FormField) (nm : String)
    (h : (nm, false) ∈ checkboxesOf form) :
    fdGet (saveConfigFormData form) nm = some "False" := by
  rw [saveConfigFormData]
  exact forceUnchecked_sets_false (checkboxesOf form) (formDataOf form) nm h

/-- Concrete save: the unchecked TRADING_ENABLED flag is transmitted as
"False" alongside a text input and a checked checkbox. -/
theorem unchecked_checkbox_sent_false_witness :
    fdGet (saveConfigFormData
        [FormField.checkbox "TRADING_ENABLED" false "on",
         FormField.input "SYMBOL" "BTCUSDT",
         FormField.checkbox "USE_TESTNET" true "on"]) "TRADING_ENABLED"
      = some "False" :=
  unchecked_checkbox_sent_false
    [FormField.checkbox "TRADING_ENABLED" false "on",
     FormField.input "SYMBOL" "BTCUSDT",
     FormField.checkbox "USE_TESTNET" true "on"] "TRADING_ENABLED" (by decide)
